import Mathlib

/-!
Shallow embedding of the `picmes` PNG chunk codec (`src/chunk_type.rs`,
`src/chunk.rs`).  Bytes are modelled as `Nat` (values `< 256` in all real
inputs), byte buffers as `List Nat`, and the `u32` machine arithmetic is made
explicit with `% 2 ^ 32` where overflow matters.  Fallible Rust functions
return `Except`; `slice::split_at` out of bounds is modelled by the
`panicked` outcome of parsing.
-/

set_option maxRecDepth 100000

namespace Picmes

/-- `u8::is_ascii_alphabetic`: `A`-`Z` (65-90) or `a`-`z` (97-122). -/
def isAsciiAlphabetic (b : Nat) : Bool :=
  (65 ≤ b && b ≤ 90) || (97 ≤ b && b ≤ 122)

/-- `char::is_uppercase` (Unicode property `Uppercase`) restricted to the
Latin-1 code points `U+0000`-`U+00FF` that `char::from(u8)` produces:
`A`-`Z`, `À`-`Ö` (0xC0-0xD6) and `Ø`-`Þ` (0xD8-0xDE). -/
def isCharUppercase (b : Nat) : Bool :=
  (65 ≤ b && b ≤ 90) || (192 ≤ b && b ≤ 214) || (216 ≤ b && b ≤ 222)

/-- `char::is_lowercase` (Unicode property `Lowercase`) restricted to
Latin-1: `a`-`z`, `ª` (0xAA), `µ` (0xB5), `º` (0xBA), `ß`-`ö` (0xDF-0xF6)
and `ø`-`ÿ` (0xF8-0xFF). -/
def isCharLowercase (b : Nat) : Bool :=
  (97 ≤ b && b ≤ 122) || b == 170 || b == 181 || b == 186 ||
    (223 ≤ b && b ≤ 246) || (248 ≤ b && b ≤ 255)

/-- `char::is_alphabetic` restricted to Latin-1.  Within `U+0000`-`U+00FF`
the `Alphabetic` property is exactly the union of `Uppercase` and
`Lowercase` (the only non-cased Latin-1 letters, `ª` and `º`, carry
`Other_Lowercase`). -/
def isCharAlphabetic (b : Nat) : Bool :=
  isCharUppercase b || isCharLowercase b

/-- The reversed CRC-32/ISO-HDLC polynomial `0xEDB88320` (spec §6: the
zlib/PNG CRC-32: reflected input/output, init `0xFFFFFFFF`, xorout
`0xFFFFFFFF`). -/
def crcPoly : Nat := 0xEDB88320

/-- One bit step of the reflected CRC-32 shift register. -/
def crcStep (c : Nat) : Nat :=
  if c % 2 = 1 then (c / 2) ^^^ crcPoly else c / 2

/-- `n` iterated bit steps. -/
def crcSteps : Nat → Nat → Nat
  | 0, c => c
  | n + 1, c => crcSteps n (crcStep c)

/-- Absorb one input byte into the running CRC register. -/
def crcUpdate (c b : Nat) : Nat := crcSteps 8 (c ^^^ b)

/-- `CHECK_SUM_32.checksum`: CRC-32/ISO-HDLC of a byte sequence.  Modelled
bitwise from the parameters the spec fixes (§6); the `crc` crate's
table-driven implementation computes the same function. -/
def crc32 (data : List Nat) : Nat :=
  (data.foldl crcUpdate 0xFFFFFFFF) ^^^ 0xFFFFFFFF

/-- `u32::to_be_bytes` (big-endian), with the `as u32` truncation explicit
for inputs `≥ 2 ^ 32`. -/
def u32be (n : Nat) : List Nat :=
  [n / 2 ^ 24 % 256, n / 2 ^ 16 % 256, n / 2 ^ 8 % 256, n % 256]

/-- `u32::from_be_bytes` on a 4-byte slice. -/
def fromBe4 (l : List Nat) : Nat :=
  l.getD 0 0 * 2 ^ 24 + l.getD 1 0 * 2 ^ 16 + l.getD 2 0 * 2 ^ 8 + l.getD 3 0

/-- `ChunkType` (`src/chunk_type.rs` line 33): a 4-byte tag,
`pub struct ChunkType(pub [u8; 4])`. -/
structure ChunkType where
  b0 : Nat
  b1 : Nat
  b2 : Nat
  b3 : Nat

deriving instance DecidableEq for ChunkType

/-- `ChunkTypeError` (`src/chunk_type.rs` lines 8-11). -/
inductive ChunkTypeError where
  | byteLengthError (actual : Nat)
  | invalidCharacter

deriving instance DecidableEq for ChunkTypeError

/-- `ChunkType::bytes`: returns the 4 underlying bytes. -/
def ChunkType.bytes (t : ChunkType) : List Nat := [t.b0, t.b1, t.b2, t.b3]

/-- `impl TryFrom<[u8; 4]> for ChunkType` (lines 42-48): always succeeds. -/
def ChunkType.tryFromBytes (v0 v1 v2 v3 : Nat) : Except ChunkTypeError ChunkType :=
  .ok ⟨v0, v1, v2, v3⟩

/-- `impl FromStr for ChunkType` (lines 50-66).  The input is the UTF-8 byte
sequence of the Rust `&str` (`s.len()` and `s.as_bytes()` are both in
bytes). -/
def ChunkType.from_str (s : List Nat) : Except ChunkTypeError ChunkType :=
  if s.length ≠ 4 then .error (.byteLengthError s.length)
  else if ¬ (s.all fun b => isAsciiAlphabetic b) then .error .invalidCharacter
  else .ok ⟨s.getD 0 0, s.getD 1 0, s.getD 2 0, s.getD 3 0⟩

/-- `ChunkType::is_critical` (lines 72-81): case of byte 0 via
`char::from`. -/
def ChunkType.is_critical (t : ChunkType) : Bool :=
  if isCharLowercase t.b0 then false
  else if isCharUppercase t.b0 then true
  else false

/-- `ChunkType::is_public` (lines 83-92): case of byte 1. -/
def ChunkType.is_public (t : ChunkType) : Bool :=
  if isCharLowercase t.b1 then false
  else if isCharUppercase t.b1 then true
  else false

/-- `ChunkType::is_reserved_bit_valid` (lines 93-105): byte 2 must be
alphabetic and uppercase. -/
def ChunkType.is_reserved_bit_valid (t : ChunkType) : Bool :=
  if ¬ isCharAlphabetic t.b2 then false
  else if isCharLowercase t.b2 then false
  else if isCharUppercase t.b2 then true
  else false

/-- `ChunkType::is_safe_to_copy` (lines 106-116): case of byte 3, lowercase
means safe. -/
def ChunkType.is_safe_to_copy (t : ChunkType) : Bool :=
  if isCharLowercase t.b3 then true
  else if isCharUppercase t.b3 then false
  else false

/-- `ChunkType::is_valid` (lines 118-124): all bytes in the ASCII letter
ranges and the reserved bit valid. -/
def ChunkType.is_valid (t : ChunkType) : Bool :=
  (t.bytes.all fun b => (97 ≤ b && b ≤ 122) || (65 ≤ b && b ≤ 90)) &&
    t.is_reserved_bit_valid

/-- `Chunk` (`src/chunk.rs` lines 32-36). -/
structure Chunk where
  chunk_data : List Nat
  chunk_type : ChunkType

deriving instance DecidableEq for Chunk

/-- `ChunkError` (`src/chunk.rs` lines 9-14). -/
inductive ChunkError where
  | invalidInput (msg : String)
  | invalidChunkType
  | invalidCheckSum (expected actual : Nat)

deriving instance DecidableEq for ChunkError

/-- Outcome of `Chunk::try_from`: success, an error return, or a Rust panic
(`slice::split_at` called with an out-of-bounds index). -/
inductive ParseOutcome where
  | ok (c : Chunk)
  | err (e : ChunkError)
  | panicked

deriving instance DecidableEq for ParseOutcome

/-- `Chunk::new` (lines 46-51). -/
def Chunk.new (chunk_type : ChunkType) (chunk_data : List Nat) : Chunk :=
  ⟨chunk_data, chunk_type⟩

/-- `Chunk::length` (lines 53-55). -/
def Chunk.length (c : Chunk) : Nat := c.chunk_data.length

/-- `Chunk::crc` (lines 62-71): CRC-32 over tag bytes followed by payload. -/
def Chunk.crc (c : Chunk) : Nat := crc32 (c.chunk_type.bytes ++ c.chunk_data)

/-- `Chunk::as_bytes` (lines 74-84): `(len as u32).to_be_bytes` ++ tag bytes
++ payload ++ `crc().to_be_bytes`.  The `as u32` cast is the explicit
`% 2 ^ 32`. -/
def Chunk.as_bytes (c : Chunk) : List Nat :=
  u32be (c.chunk_data.length % 2 ^ 32) ++ c.chunk_type.bytes ++ c.chunk_data ++
    u32be c.crc

/-- The `ChunkType` that `Chunk::try_from` builds from bytes 4..7 of the
input (lines 118-120; `ChunkType::try_from` itself never fails). -/
def parsedTag (value : List Nat) : ChunkType :=
  ⟨((value.drop 4).take 4).getD 0 0, ((value.drop 4).take 4).getD 1 0,
    ((value.drop 4).take 4).getD 2 0, ((value.drop 4).take 4).getD 3 0⟩

/-- `impl TryFrom<&[u8]> for Chunk` (lines 108-144).  `split_at` with an
index beyond the slice length panics in Rust, modelled by `.panicked`. -/
def Chunk.try_from (value : List Nat) : ParseOutcome :=
  if value.length < 12 then .err (.invalidInput "Chunk is too small")
  else
    let data_length := fromBe4 (value.take 4)
    let rest := value.drop 4
    let rest2 := rest.drop 4
    let chunk_type := parsedTag value
    if ¬ chunk_type.is_valid then .err .invalidChunkType
    else if rest2.length < data_length then .panicked
    else
      let data_slice := rest2.take data_length
      let rest3 := rest2.drop data_length
      if rest3.length < 4 then .panicked
      else
        let crc_slice := rest3.take 4
        let new_chunk : Chunk := ⟨data_slice, chunk_type⟩
        let new_crc := new_chunk.crc
        let expected_crc := fromBe4 crc_slice
        if new_crc ≠ expected_crc then .err (.invalidCheckSum expected_crc new_crc)
        else .ok new_chunk

/-- The tag `"RuSt"`. -/
def rustType : ChunkType := ⟨82, 117, 83, 116⟩

/-- UTF-8 bytes of `"This is where your secret message will be!"`. -/
def msgBytes : List Nat :=
  [84, 104, 105, 115, 32, 105, 115, 32, 119, 104, 101, 114, 101, 32, 121,
   111, 117, 114, 32, 115, 101, 99, 114, 101, 116, 32, 109, 101, 115, 115,
   97, 103, 101, 32, 119, 105, 108, 108, 32, 98, 101, 33]

theorem u32be_length (n : Nat) : (u32be n).length = 4 := rfl

theorem fromBe4_u32be (n : Nat) (h : n < 2 ^ 32) : fromBe4 (u32be n) = n := by
  simp only [u32be, fromBe4, List.getD_cons_zero, List.getD_cons_succ]
  omega

theorem crcStep_lt (c : Nat) (h : c < 2 ^ 32) : crcStep c < 2 ^ 32 := by
  rw [crcStep]
  split
  · exact Nat.xor_lt_two_pow (by omega) (by decide)
  · omega

theorem crcSteps_lt (n c : Nat) (h : c < 2 ^ 32) : crcSteps n c < 2 ^ 32 := by
  induction n generalizing c with
  | zero => exact h
  | succ k ih => exact ih _ (crcStep_lt c h)

theorem crcUpdate_lt (c b : Nat) (hc : c < 2 ^ 32) (hb : b < 2 ^ 32) :
    crcUpdate c b < 2 ^ 32 :=
  crcSteps_lt 8 _ (Nat.xor_lt_two_pow hc hb)

/-- The CRC register never leaves the `u32` range on byte input. -/
theorem crc32_lt (data : List Nat) (h : ∀ b ∈ data, b < 256) :
    crc32 data < 2 ^ 32 := by
  rw [crc32]
  refine Nat.xor_lt_two_pow ?_ (by decide)
  have main : ∀ (l : List Nat) (acc : Nat), acc < 2 ^ 32 → (∀ b ∈ l, b < 256) →
      l.foldl crcUpdate acc < 2 ^ 32 := by
    intro l
    induction l with
    | nil => exact fun acc ha _ => ha
    | cons x xs ih =>
      intro acc ha hl
      refine ih _ (crcUpdate_lt _ _ ha ?_) (fun b hb => hl b (by simp [hb]))
      exact lt_trans (hl x (by simp)) (by norm_num)
  exact main data 0xFFFFFFFF (by decide) h

/-- A tag passing `is_valid` has all 4 bytes in the ASCII letter ranges. -/
theorem is_valid_bytes_lt (t : ChunkType) (hv : t.is_valid = true) :
    ∀ b ∈ t.bytes, b < 256 := by
  rw [ChunkType.is_valid, Bool.and_eq_true] at hv
  intro b hb
  have := List.all_eq_true.mp hv.1 b hb
  simp only [Bool.or_eq_true, Bool.and_eq_true, decide_eq_true_eq] at this
  omega

/-- A 12-byte buffer that declares a payload length (100) far beyond the 4
bytes remaining after the length and tag fields. -/
def c2buf : List Nat := [0, 0, 0, 100, 82, 117, 83, 116, 0, 0, 0, 0]

/-- Claim C2: the code does NOT return a bounds error when the declared
length exceeds the remaining buffer — `rest.split_at(data_length)` panics.
On `c2buf` (length 12, declared payload length 100, only 4 bytes after the
tag) `Chunk::try_from` reaches the out-of-bounds `split_at`, modelled as
`.panicked`, contradicting the spec's required bounds error. -/
theorem c2_declared_length_causes_panic :
    12 ≤ c2buf.length ∧ fromBe4 (c2buf.take 4) = 100 ∧
      c2buf.length - 8 < 100 ∧ Chunk.try_from c2buf = .panicked := by
  decide

/-- Claim C3: on any buffer of at least 12 bytes whose 4 tag bytes fail
`is_valid`, `Chunk::try_from` returns the invalid-chunk-type error — before
any payload is split off and before any CRC comparison, whatever the
remaining bytes are. -/
theorem c3_invalid_tag_rejected (value : List Nat)
    (hlen : 12 ≤ value.length)
    (hvalid : (parsedTag value).is_valid = false) :
    Chunk.try_from value = .err .invalidChunkType := by
  simp [Chunk.try_from, Nat.not_lt.mpr hlen, hvalid]

/-- A buffer carrying the invalid tag `"Rust"` (byte 2 lowercase) whose
trailing CRC is exactly the CRC recomputed over the tampered tag and the
(empty) payload. -/
def c3buf : List Nat := [0, 0, 0, 0] ++ [82, 117, 115, 116] ++ u32be (crc32 [82, 117, 115, 116])

theorem c3_invalid_tag_rejected_witness :
    Chunk.try_from c3buf = .err .invalidChunkType :=
  c3_invalid_tag_rejected c3buf (by decide) (by decide)

/-- Claim C4 counterexample: the payload
`"This is where your secret message will be!"` is 42 bytes, not 44, so
`length()` on the chunk built from it and `"RuSt"` is not 44. -/
theorem c4_length_not_44 :
    msgBytes.length = 42 ∧ (Chunk.new rustType msgBytes).length ≠ 44 := by
  decide

/-- Claim C4 (amended): for that payload (42 bytes) and tag `"RuSt"`,
`length()` returns 42 and `crc()` returns 2882656334. -/
theorem c4_length_and_crc :
    (Chunk.new rustType msgBytes).length = 42 ∧
      (Chunk.new rustType msgBytes).crc = 2882656334 := by
  decide

/-- Claim C6 counterexample: byte 192 (0xC0, Latin-1 `À`) is outside the
ASCII-alphabetic ranges, yet `is_critical`, `is_public` and
`is_reserved_bit_valid` return `true` on it, and byte 224 (0xE0, `à`)
makes `is_safe_to_copy` return `true` — because the predicates classify the
byte through `char::from(u8)` with Unicode case predicates. -/
theorem c6_nonascii_byte_sets_flags :
    isAsciiAlphabetic 192 = false ∧ isAsciiAlphabetic 224 = false ∧
      ChunkType.is_critical ⟨192, 117, 83, 116⟩ = true ∧
      ChunkType.is_public ⟨82, 192, 83, 116⟩ = true ∧
      ChunkType.is_reserved_bit_valid ⟨82, 117, 192, 116⟩ = true ∧
      ChunkType.is_safe_to_copy ⟨82, 117, 83, 224⟩ = true := by
  decide

/-- Claim C6 (amended): each classification predicate returns `false` when
the byte at its position is not Unicode-alphabetic under the Latin-1
interpretation of `char::from(u8)` (a strictly larger set than ASCII
letters: it also has 0xAA, 0xB5, 0xBA, 0xC0-0xD6, 0xD8-0xF6, 0xF8-0xFF). -/
theorem c6_nonalpha_latin1_flags_clear (t : ChunkType) :
    (isCharAlphabetic t.b0 = false → t.is_critical = false) ∧
    (isCharAlphabetic t.b1 = false → t.is_public = false) ∧
    (isCharAlphabetic t.b2 = false → t.is_reserved_bit_valid = false) ∧
    (isCharAlphabetic t.b3 = false → t.is_safe_to_copy = false) := by
  refine ⟨fun h => ?_, fun h => ?_, fun h => ?_, fun h => ?_⟩ <;>
    rw [isCharAlphabetic, Bool.or_eq_false_iff] at h <;>
    simp [ChunkType.is_critical, ChunkType.is_public,
      ChunkType.is_reserved_bit_valid, ChunkType.is_safe_to_copy,
      isCharAlphabetic, h.1, h.2]

theorem c6_nonalpha_latin1_flags_clear_witness :
    ChunkType.is_critical ⟨48, 49, 50, 51⟩ = false ∧
      ChunkType.is_public ⟨48, 49, 50, 51⟩ = false ∧
      ChunkType.is_reserved_bit_valid ⟨48, 49, 50, 51⟩ = false ∧
      ChunkType.is_safe_to_copy ⟨48, 49, 50, 51⟩ = false :=
  ⟨(c6_nonalpha_latin1_flags_clear ⟨48, 49, 50, 51⟩).1 (by decide),
   (c6_nonalpha_latin1_flags_clear ⟨48, 49, 50, 51⟩).2.1 (by decide),
   (c6_nonalpha_latin1_flags_clear ⟨48, 49, 50, 51⟩).2.2.1 (by decide),
   (c6_nonalpha_latin1_flags_clear ⟨48, 49, 50, 51⟩).2.2.2 (by decide)⟩

/-- Claim C7: a buffer shorter than 12 bytes fails with the
`InvalidInput("Chunk is too small")` error, and a buffer of at least 12
bytes never fails with any `InvalidInput` error. -/
theorem c7_too_small_error (v1 v2 : List Nat) (s : String)
    (h1 : v1.length < 12) (h2 : 12 ≤ v2.length) :
    Chunk.try_from v1 = .err (.invalidInput "Chunk is too small") ∧
      Chunk.try_from v2 ≠ .err (.invalidInput s) := by
  constructor
  · simp [Chunk.try_from, h1]
  · simp only [Chunk.try_from, Nat.not_lt.mpr h2, if_false]
    split_ifs <;> simp

theorem c7_too_small_error_witness :
    Chunk.try_from [] = .err (.invalidInput "Chunk is too small") ∧
      Chunk.try_from (List.replicate 12 0) ≠ .err (.invalidInput "Chunk is too small") :=
  c7_too_small_error [] (List.replicate 12 0) "Chunk is too small"
    (by decide) (by decide)

/-- Claim C8: `ChunkType::from_str` fails with the length error (carrying
the byte count) for inputs not exactly 4 bytes long, fails with the
character error for 4-byte inputs containing a non-ASCII-alphabetic byte,
and on success agrees with the raw-byte constructor `TryFrom<[u8; 4]>`. -/
theorem c8_from_str_behaviour (s1 s2 s3 : List Nat)
    (h1 : s1.length ≠ 4)
    (h2len : s2.length = 4) (h2bad : s2.all isAsciiAlphabetic = false)
    (h3len : s3.length = 4) (h3ok : s3.all isAsciiAlphabetic = true) :
    ChunkType.from_str s1 = .error (.byteLengthError s1.length) ∧
      ChunkType.from_str s2 = .error .invalidCharacter ∧
      ChunkType.from_str s3 =
        ChunkType.tryFromBytes (s3.getD 0 0) (s3.getD 1 0) (s3.getD 2 0) (s3.getD 3 0) := by
  refine ⟨?_, ?_, ?_⟩
  · simp [ChunkType.from_str, h1]
  · simp [ChunkType.from_str, h2len, h2bad]
  · simp [ChunkType.from_str, h3len, h3ok, ChunkType.tryFromBytes]

theorem c8_from_str_behaviour_witness :
    ChunkType.from_str [] = .error (.byteLengthError 0) ∧
      ChunkType.from_str [82, 117, 49, 116] = .error .invalidCharacter ∧
      ChunkType.from_str [82, 117, 83, 116] = ChunkType.tryFromBytes 82 117 83 116 :=
  c8_from_str_behaviour [] [82, 117, 49, 116] [82, 117, 83, 116]
    (by decide) (by decide) (by decide) (by decide) (by decide)

/-- Claim C10: the "4 units" length check of `ChunkType::from_str` counts
UTF-8 bytes: a 4-byte input containing a multi-byte character (some byte
`≥ 0x80`) passes the length check and fails with the character error, and
the length error, when raised, carries the input's byte count. -/
theorem c10_length_counts_bytes (s t : List Nat) (b : Nat)
    (hs : s.length = 4) (hb : b ∈ s) (hb128 : 128 ≤ b)
    (ht : t.length ≠ 4) :
    ChunkType.from_str s = .error .invalidCharacter ∧
      ChunkType.from_str t = .error (.byteLengthError t.length) := by
  constructor
  · have hall : s.all isAsciiAlphabetic = false := by
      rw [List.all_eq_false]
      refine ⟨b, hb, ?_⟩
      simp only [isAsciiAlphabetic, Bool.or_eq_true, Bool.and_eq_true,
        decide_eq_true_eq, not_or, not_and]
      omega
    simp [ChunkType.from_str, hs, hall]
  · simp [ChunkType.from_str, ht]

theorem c10_length_counts_bytes_witness :
    ChunkType.from_str [195, 169, 97, 98] = .error .invalidCharacter ∧
      ChunkType.from_str [97, 98, 99, 100, 101] = .error (.byteLengthError 5) :=
  c10_length_counts_bytes [195, 169, 97, 98] [97, 98, 99, 100, 101] 195
    (by decide) (by decide) (by decide) (by decide)

/-- Claim C1 (amended): for every tag passing `is_valid` and every payload
of fewer than `2 ^ 32` bytes, parsing the serialization of
`Chunk::new(tag, payload)` succeeds and returns a chunk with the same tag
bytes, payload bytes and CRC (here: the identical `Chunk` value).  The
`2 ^ 32` bound is forced by the `as u32` cast in `as_bytes`. -/
theorem c1_round_trip (t : ChunkType) (payload : List Nat)
    (hvalid : t.is_valid = true) (hlen : payload.length < 2 ^ 32)
    (hbytes : ∀ b ∈ payload, b < 256) :
    Chunk.try_from (Chunk.as_bytes (Chunk.new t payload)) = .ok (Chunk.new t payload) := by
  have htb : t.bytes.length = 4 := rfl
  have hcrclt : Chunk.crc ⟨payload, t⟩ < 2 ^ 32 := by
    refine crc32_lt _ ?_
    intro b hb
    rcases List.mem_append.mp hb with hmem | hmem
    · exact is_valid_bytes_lt t hvalid b hmem
    · exact hbytes b hmem
  have hbuf : Chunk.as_bytes (Chunk.new t payload) =
      u32be payload.length ++ (t.bytes ++ (payload ++ u32be (Chunk.crc ⟨payload, t⟩))) := by
    simp only [Chunk.as_bytes, Chunk.new, List.append_assoc]
    rw [Nat.mod_eq_of_lt hlen]
  have hlen12 : ¬ ((u32be payload.length ++
      (t.bytes ++ (payload ++ u32be (Chunk.crc ⟨payload, t⟩)))).length < 12) := by
    simp only [List.length_append, u32be_length, htb]
    omega
  have hdropA : (u32be payload.length ++
      (t.bytes ++ (payload ++ u32be (Chunk.crc ⟨payload, t⟩)))).drop 4 =
      t.bytes ++ (payload ++ u32be (Chunk.crc ⟨payload, t⟩)) :=
    List.drop_left' (u32be_length _)
  have htakeA : (u32be payload.length ++
      (t.bytes ++ (payload ++ u32be (Chunk.crc ⟨payload, t⟩)))).take 4 =
      u32be payload.length :=
    List.take_left' (u32be_length _)
  have hdropB : (t.bytes ++ (payload ++ u32be (Chunk.crc ⟨payload, t⟩))).drop 4 =
      payload ++ u32be (Chunk.crc ⟨payload, t⟩) :=
    List.drop_left' htb
  have htagEq : parsedTag (u32be payload.length ++
      (t.bytes ++ (payload ++ u32be (Chunk.crc ⟨payload, t⟩)))) = t := by
    have h2 : (t.bytes ++ (payload ++ u32be (Chunk.crc ⟨payload, t⟩))).take 4 = t.bytes :=
      List.take_left' htb
    rw [parsedTag, hdropA, h2]
    rfl
  have hnb1 : ¬ ((payload ++ u32be (Chunk.crc ⟨payload, t⟩)).length < payload.length) := by
    simp only [List.length_append, u32be_length]
    omega
  have htakeC : (payload ++ u32be (Chunk.crc ⟨payload, t⟩)).take payload.length = payload :=
    List.take_left' rfl
  have hdropC : (payload ++ u32be (Chunk.crc ⟨payload, t⟩)).drop payload.length =
      u32be (Chunk.crc ⟨payload, t⟩) :=
    List.drop_left' rfl
  have hnb2 : ¬ ((u32be (Chunk.crc ⟨payload, t⟩)).length < 4) := by
    rw [u32be_length]
    omega
  have htakeD : (u32be (Chunk.crc ⟨payload, t⟩)).take 4 = u32be (Chunk.crc ⟨payload, t⟩) := rfl
  have hnv : ¬ ¬ (t.is_valid = true) := not_not_intro hvalid
  have hfinal : ¬ (Chunk.crc ⟨payload, t⟩ ≠ Chunk.crc ⟨payload, t⟩) := not_not_intro rfl
  rw [hbuf]
  simp only [Chunk.try_from]
  rw [if_neg hlen12, htakeA, hdropA, hdropB, htagEq, if_neg hnv,
    fromBe4_u32be payload.length hlen, if_neg hnb1, htakeC, hdropC, if_neg hnb2,
    htakeD, fromBe4_u32be _ hcrclt, if_neg hfinal]
  rfl

theorem c1_round_trip_witness :
    Chunk.try_from (Chunk.as_bytes (Chunk.new rustType [1, 2, 3])) =
      .ok (Chunk.new rustType [1, 2, 3]) :=
  c1_round_trip rustType [1, 2, 3] (by decide) (by decide) (by decide)

/-- A payload of `2 ^ 32` zero bytes: its length does not fit the 4-byte
length field, so the `as u32` cast in `as_bytes` truncates it to 0. -/
def bigPayload : List Nat := List.replicate (2 ^ 32) 0

/-- The chunk built from tag `"RuSt"` and `bigPayload`. -/
def bigChunk : Chunk := Chunk.new rustType bigPayload

theorem bigChunk_as_bytes : Chunk.as_bytes bigChunk =
    u32be 0 ++ (rustType.bytes ++ (bigPayload ++ u32be (Chunk.crc ⟨bigPayload, rustType⟩))) := by
  simp only [Chunk.as_bytes, bigChunk, Chunk.new, List.append_assoc]
  rw [show bigPayload.length % 2 ^ 32 = 0 by
    rw [bigPayload, List.length_replicate]
    exact Nat.mod_self _]

/-- Claim C1 counterexample: with the valid tag `"RuSt"` and the
`2 ^ 32`-byte payload, the serialized length field reads 0, so parsing the
serialization stops at an empty payload and fails the CRC comparison
(expected field 0, recomputed CRC-32 of `"RuSt"` alone = 3565422908)
instead of returning the original chunk. -/
theorem c1_big_payload_roundtrip_fails :
    bigPayload.length = 2 ^ 32 ∧
      Chunk.try_from (Chunk.as_bytes bigChunk) = .err (.invalidCheckSum 0 3565422908) := by
  have hrb : rustType.bytes.length = 4 := rfl
  have hlenbig : bigPayload.length = 2 ^ 32 := by
    rw [bigPayload, List.length_replicate]
  refine ⟨hlenbig, ?_⟩
  have hlen12 : ¬ ((u32be 0 ++ (rustType.bytes ++
      (bigPayload ++ u32be (Chunk.crc ⟨bigPayload, rustType⟩)))).length < 12) := by
    rw [List.length_append, List.length_append, List.length_append, u32be_length,
      u32be_length, hrb, hlenbig]
    decide
  have htakeA : (u32be 0 ++ (rustType.bytes ++
      (bigPayload ++ u32be (Chunk.crc ⟨bigPayload, rustType⟩)))).take 4 = u32be 0 :=
    List.take_left' (u32be_length _)
  have hdropA : (u32be 0 ++ (rustType.bytes ++
      (bigPayload ++ u32be (Chunk.crc ⟨bigPayload, rustType⟩)))).drop 4 =
      rustType.bytes ++ (bigPayload ++ u32be (Chunk.crc ⟨bigPayload, rustType⟩)) :=
    List.drop_left' (u32be_length _)
  have hdropB : (rustType.bytes ++
      (bigPayload ++ u32be (Chunk.crc ⟨bigPayload, rustType⟩))).drop 4 =
      bigPayload ++ u32be (Chunk.crc ⟨bigPayload, rustType⟩) :=
    List.drop_left' hrb
  have htagEq : parsedTag (u32be 0 ++ (rustType.bytes ++
      (bigPayload ++ u32be (Chunk.crc ⟨bigPayload, rustType⟩)))) = rustType := by
    have h2 : (rustType.bytes ++
        (bigPayload ++ u32be (Chunk.crc ⟨bigPayload, rustType⟩))).take 4 = rustType.bytes :=
      List.take_left' hrb
    rw [parsedTag, hdropA, h2]
    rfl
  have hnv : ¬ ¬ (rustType.is_valid = true) := not_not_intro (by decide)
  have hnb2 : ¬ ((bigPayload ++ u32be (Chunk.crc ⟨bigPayload, rustType⟩)).length < 4) := by
    rw [List.length_append, u32be_length, hlenbig]
    decide
  have hcrcslice : (bigPayload ++ u32be (Chunk.crc ⟨bigPayload, rustType⟩)).take 4 =
      [0, 0, 0, 0] := by
    rw [List.take_append_of_le_length (by rw [hlenbig]; decide), bigPayload,
      List.take_replicate]
    decide
  rw [bigChunk_as_bytes]
  simp only [Chunk.try_from]
  rw [if_neg hlen12, htakeA, hdropA, hdropB, htagEq, if_neg hnv,
    show fromBe4 (u32be 0) = 0 from rfl, if_neg (Nat.not_lt_zero _), List.take_zero,
    List.drop_zero, if_neg hnb2, hcrcslice]
  decide

/-- Claim C5 counterexample: for `bigChunk` the first 4 output bytes are
`[0, 0, 0, 0]`, which decode to 0, not to the payload byte count
`2 ^ 32` — the length field holds the count modulo `2 ^ 32`, not the
count. -/
theorem c5_length_field_truncated :
    bigChunk.length = 2 ^ 32 ∧ (Chunk.as_bytes bigChunk).take 4 = [0, 0, 0, 0] ∧
      fromBe4 [0, 0, 0, 0] ≠ 2 ^ 32 := by
  refine ⟨?_, ?_, by decide⟩
  · rw [bigChunk, Chunk.new, Chunk.length]
    rw [bigPayload, List.length_replicate]
  · rw [bigChunk_as_bytes, List.take_left' (u32be_length _)]
    rfl

/-- Claim C5 (amended): `as_bytes` emits, in order, the payload byte count
modulo `2 ^ 32` as 4 big-endian bytes, the 4 raw tag bytes, the payload
verbatim, and `crc()` as 4 big-endian bytes; the output length is
`12 + length()`. -/
theorem c5_as_bytes_layout (c : Chunk) :
    Chunk.as_bytes c = u32be (c.length % 2 ^ 32) ++ c.chunk_type.bytes ++
        c.chunk_data ++ u32be c.crc ∧
      (Chunk.as_bytes c).length = 12 + c.length := by
  refine ⟨rfl, ?_⟩
  have hct : c.chunk_type.bytes.length = 4 := rfl
  simp only [Chunk.as_bytes, List.length_append, u32be_length, hct, Chunk.length]
  omega

/-- Claim C9: appending arbitrary trailing bytes to a buffer that
`Chunk::try_from` accepts does not change the parse result — the bytes
beyond the `12 + L` envelope are neither consumed nor validated, and the
returned chunk is the one parsed from the accepted buffer alone. -/
theorem c9_trailing_bytes_ignored (value extra : List Nat) (c : Chunk)
    (h : Chunk.try_from value = .ok c) :
    Chunk.try_from (value ++ extra) = .ok c := by
  simp only [Chunk.try_from] at h ⊢
  by_cases h12 : value.length < 12
  · rw [if_pos h12] at h
    cases h
  rw [if_neg h12] at h
  by_cases hv : (parsedTag value).is_valid = true
  case neg =>
    rw [if_pos hv] at h
    cases h
  rw [if_neg (not_not_intro hv)] at h
  by_cases hb1 : ((value.drop 4).drop 4).length < fromBe4 (value.take 4)
  · rw [if_pos hb1] at h
    cases h
  rw [if_neg hb1] at h
  by_cases hb2 : (((value.drop 4).drop 4).drop (fromBe4 (value.take 4))).length < 4
  · rw [if_pos hb2] at h
    cases h
  rw [if_neg hb2] at h
  by_cases hcrc : Chunk.crc ⟨((value.drop 4).drop 4).take (fromBe4 (value.take 4)),
      parsedTag value⟩ ≠ fromBe4 ((((value.drop 4).drop 4).drop (fromBe4 (value.take 4))).take 4)
  · rw [if_pos hcrc] at h
    cases h
  rw [if_neg hcrc] at h
  have hT4 : (value ++ extra).take 4 = value.take 4 :=
    List.take_append_of_le_length (by omega)
  have hD4 : (value ++ extra).drop 4 = value.drop 4 ++ extra :=
    List.drop_append_of_le_length (by omega)
  have hlen4 : 4 ≤ (value.drop 4).length := by
    rw [List.length_drop]
    omega
  have hD44 : ((value ++ extra).drop 4).drop 4 = (value.drop 4).drop 4 ++ extra := by
    rw [hD4, List.drop_append_of_le_length hlen4]
  have htag : parsedTag (value ++ extra) = parsedTag value := by
    rw [parsedTag, parsedTag, hD4, List.take_append_of_le_length hlen4]
  have hL : fromBe4 (value.take 4) ≤ ((value.drop 4).drop 4).length :=
    Nat.not_lt.mp hb1
  have hTL : ((value.drop 4).drop 4 ++ extra).take (fromBe4 (value.take 4)) =
      ((value.drop 4).drop 4).take (fromBe4 (value.take 4)) :=
    List.take_append_of_le_length hL
  have hDL : ((value.drop 4).drop 4 ++ extra).drop (fromBe4 (value.take 4)) =
      ((value.drop 4).drop 4).drop (fromBe4 (value.take 4)) ++ extra :=
    List.drop_append_of_le_length hL
  have h4r : 4 ≤ (((value.drop 4).drop 4).drop (fromBe4 (value.take 4))).length :=
    Nat.not_lt.mp hb2
  have hTC : (((value.drop 4).drop 4).drop (fromBe4 (value.take 4)) ++ extra).take 4 =
      (((value.drop 4).drop 4).drop (fromBe4 (value.take 4))).take 4 :=
    List.take_append_of_le_length h4r
  have h12' : ¬ ((value ++ extra).length < 12) := by
    rw [List.length_append]
    omega
  have hnb1' : ¬ (((value.drop 4).drop 4 ++ extra).length < fromBe4 (value.take 4)) := by
    rw [List.length_append]
    omega
  have hnb2' : ¬ ((((value.drop 4).drop 4).drop (fromBe4 (value.take 4)) ++ extra).length < 4) := by
    rw [List.length_append]
    omega
  rw [if_neg h12', hT4, hD44, htag, if_neg (not_not_intro hv), if_neg hnb1', hTL, hDL,
    if_neg hnb2', hTC, if_neg hcrc]
  exact h

theorem c9_trailing_bytes_ignored_witness :
    Chunk.try_from (Chunk.as_bytes (Chunk.new rustType msgBytes) ++ [1, 2, 3]) =
      .ok (Chunk.new rustType msgBytes) :=
  c9_trailing_bytes_ignored (Chunk.as_bytes (Chunk.new rustType msgBytes)) [1, 2, 3]
    (Chunk.new rustType msgBytes) (by decide)

end Picmes
